import Mathlib

/-!
Verification of the DevLog session lifecycle and query engine.

The Python sources (devlog/storage.py, devlog/session.py, devlog/report.py)
are embedded shallowly:

* Python strings are `List Char`; `str.strip` / `str.lower` become `pyStrip` /
  `pyLower` (the ASCII fragment, which is what the repository's data uses).
* Timestamps (`datetime.now().isoformat()`) are seconds since the epoch as
  `Nat`; lexicographic comparison of ISO-8601 strings agrees with numeric
  comparison of these values.  One day is 86400 seconds.
* The SQLite tables become explicit lists inside a `Storage` structure.
  `AUTOINCREMENT` is the `next_id` counter.  The Python `sqlite3` driver never
  issues `PRAGMA foreign_keys = ON`, so the declared `ON DELETE CASCADE` on
  the tags table is inert at runtime: `delete_session` removes only the
  session row, exactly as the running code does.
* `GROUP_CONCAT(t.tag)` is `List.intercalate [',']` over the tag rows in
  insertion order, `NULL` when the session has no tags.
* `ORDER BY start_time DESC` is `List.insertionSort` with the relation
  "later start time first"; ties are resolved in some order, which SQLite
  also leaves unspecified.
* Fractions produced by report percentages and averages are modelled in `ℚ`.
-/

/-- ASCII whitespace stripped by Python's `str.strip`:
space (32), tab (9), LF (10), VT (11), FF (12), CR (13). -/
def pyIsSpace (c : Char) : Bool := c.toNat = 32 || (9 ≤ c.toNat && c.toNat ≤ 13)

/-- Python `str.strip`: drop leading and trailing whitespace. -/
def pyStrip (l : List Char) : List Char :=
  ((l.dropWhile pyIsSpace).reverse.dropWhile pyIsSpace).reverse

/-- Python `str.lower` (ASCII fragment, as used by the repository's tags). -/
def pyLower (l : List Char) : List Char := l.map Char.toLower

/-- Substring test: `needle in hay` / SQL `LIKE '%needle%'` (case handled by
callers, matching SQLite's ASCII case-insensitive LIKE). -/
def containsSub (needle hay : List Char) : Bool :=
  hay.tails.any fun t => needle.isPrefixOf t

/-- Python truthiness of an optional string (None and "" are falsy). -/
def strTruthy : Option (List Char) → Bool
  | none => false
  | some l => !l.isEmpty

/-- Python truthiness of the optional `duration` column
(None and 0 are falsy; every other integer is truthy). -/
def durTruthy : Option Int → Bool
  | none => false
  | some d => d != 0

/-- `int((now - start).total_seconds() / 60)`: Python `int()` truncates toward
zero, which on a nonnegative difference is the floor of minutes. -/
def pyDurMinutes (start now : Nat) : Int :=
  if start ≤ now then ((now - start) / 60 : Nat)
  else -(((start - now) / 60 : Nat) : Int)

/-- A row of the `sessions` table (storage.py `_init_database`). -/
structure Session where
  id : Nat
  description : List Char
  start_time : Nat
  end_time : Option Nat
  duration : Option Int
  notes : Option (List Char)
  created_at : Nat
deriving Repr, DecidableEq

/-- The persistent store: the `sessions` table, the `tags` table
(rows `(session_id, tag)` in insertion order) and the AUTOINCREMENT counter. -/
structure Storage where
  sessions : List Session
  tags : List (Nat × List Char)
  next_id : Nat
deriving Repr, DecidableEq

/-- A freshly initialised database. -/
def emptyStorage : Storage := ⟨[], [], 1⟩

/-- `GROUP_CONCAT(t.tag)` for one session under the LEFT JOIN:
`NULL` when the session has no tag rows. -/
def tagsConcat (σ : Storage) (sid : Nat) : Option (List Char) :=
  let ts := (σ.tags.filter fun tr => decide (tr.1 = sid)).map Prod.snd
  if ts.isEmpty then none else some (List.intercalate [','] ts)

/-- `ORDER BY s.start_time DESC`: later start times first. -/
def startDescR (a b : Session) : Prop := b.start_time ≤ a.start_time

instance : DecidableRel startDescR := fun a b => Nat.decLe _ _

instance : IsTotal Session startDescR := ⟨fun a b => Nat.le_total b.start_time a.start_time⟩

instance : IsTrans Session startDescR := ⟨fun _ _ _ h₁ h₂ => Nat.le_trans h₂ h₁⟩

/-- `ORDER BY total_minutes DESC` for the tag summary rows. -/
def minutesDescR (a b : List Char × Nat × Int) : Prop := b.2.2 ≤ a.2.2

instance : DecidableRel minutesDescR := fun a b => Int.decLe _ _

instance : IsTotal (List Char × Nat × Int) minutesDescR :=
  ⟨fun a b => Int.le_total b.2.2 a.2.2⟩

instance : IsTrans (List Char × Nat × Int) minutesDescR :=
  ⟨fun _ _ _ h₁ h₂ => Int.le_trans h₂ h₁⟩

/-- The two optional date filters of `get_sessions` / `get_tag_summary`:
`s.start_time >= start_date AND s.start_time <= end_date`. -/
def dateOkB (sd ed : Option Nat) (s : Session) : Bool :=
  (match sd with | some d => decide (d ≤ s.start_time) | none => true) &&
  (match ed with | some d => decide (s.start_time ≤ d) | none => true)

/-- The WHERE clause assembled by `Storage.get_sessions` (storage.py 186-209):
date range, tag subquery (applied only when `tag` is truthy, comparing against
`tag.lower().strip()`), and case-insensitive LIKE search over description OR
notes (applied only when `search_term` is truthy; a NULL notes column never
matches). -/
def sessPred (σ : Storage) (sd ed : Option Nat) (tag term : Option (List Char))
    (s : Session) : Bool :=
  dateOkB sd ed s &&
  (if strTruthy tag then
      σ.tags.any fun tr =>
        decide (tr.1 = s.id) && decide (tr.2 = pyStrip (pyLower (tag.getD [])))
    else true) &&
  (if strTruthy term then
      containsSub (pyLower (term.getD [])) (pyLower s.description) ||
      (match s.notes with
        | some n => containsSub (pyLower (term.getD [])) (pyLower n)
        | none => false)
    else true)

/-- storage.py `Storage.create_session`: insert an active session with the
current time as both `start_time` and `created_at`, then one tag row per tag,
stored as `tag.lower().strip()`.  Returns the new id. -/
def Storage.create_session (σ : Storage) (now : Nat) (description : List Char)
    (tags : List (List Char)) : Storage × Nat :=
  let sid := σ.next_id
  (⟨σ.sessions ++ [⟨sid, description, now, none, none, none, now⟩],
    σ.tags ++ tags.map (fun t => (sid, pyStrip (pyLower t))),
    sid + 1⟩, sid)

/-- storage.py `Storage.end_session`: look up the session; if absent return
`false`; otherwise compute the duration from the fetched row's start time and
overwrite `end_time`, `duration` and `notes` on the row with that id. -/
def Storage.end_session (σ : Storage) (now : Nat) (session_id : Nat)
    (notes : Option (List Char)) : Storage × Bool :=
  match σ.sessions.find? (fun r => decide (r.id = session_id)) with
  | none => (σ, false)
  | some s =>
    (⟨σ.sessions.map fun r =>
        if r.id = session_id then
          { r with end_time := some now,
                   duration := some (pyDurMinutes s.start_time now),
                   notes := notes }
        else r,
      σ.tags, σ.next_id⟩, true)

/-- `ORDER BY start_time DESC LIMIT 1` over a candidate list: one row with a
maximal start time (SQLite leaves the choice among ties unspecified). -/
def pickLatest : List Session → Option Session
  | [] => none
  | s :: rest =>
    match pickLatest rest with
    | none => some s
    | some b => if b.start_time ≤ s.start_time then some s else some b

/-- storage.py `Storage.get_active_session`: the session with `end_time IS
NULL` (latest start time first), with its `GROUP_CONCAT` tag string. -/
def Storage.get_active_session (σ : Storage) : Option (Session × Option (List Char)) :=
  match pickLatest (σ.sessions.filter fun s => s.end_time.isNone) with
  | none => none
  | some s => some (s, tagsConcat σ s.id)

/-- storage.py `Storage.get_sessions`: filter, order by start time descending,
apply LIMIT, and attach each row's `GROUP_CONCAT` tag string. -/
def Storage.get_sessions (σ : Storage) (start_date end_date : Option Nat)
    (tag search_term : Option (List Char)) (limit : Nat) :
    List (Session × Option (List Char)) :=
  ((List.insertionSort startDescR
      (σ.sessions.filter (sessPred σ start_date end_date tag search_term))).take
    limit).map fun s => (s, tagsConcat σ s.id)

/-- The JOIN of `get_tag_summary` (storage.py 235-241): every pair of a tag row
and a session row with the same id, restricted to `duration IS NOT NULL` and
the optional date range. -/
def Storage.tagJoin (σ : Storage) (sd ed : Option Nat) : List (List Char × Session) :=
  σ.tags.flatMap fun tr =>
    (σ.sessions.filter fun s =>
      decide (s.id = tr.1) && s.duration.isSome && dateOkB sd ed s).map
      fun s => (tr.2, s)

/-- storage.py `Storage.get_tag_summary`: group the join by tag, producing
`(tag, COUNT(DISTINCT s.id), SUM(s.duration))`, ordered by minutes
descending. -/
def Storage.get_tag_summary (σ : Storage) (sd ed : Option Nat) :
    List (List Char × Nat × Int) :=
  List.insertionSort minutesDescR
    (((Storage.tagJoin σ sd ed).map Prod.fst).dedup.map fun t =>
      (t,
       ((((Storage.tagJoin σ sd ed).filter fun p => decide (p.1 = t)).map
           fun p => p.2.id).dedup).length,
       ((((Storage.tagJoin σ sd ed).filter fun p => decide (p.1 = t)).map
           fun p => p.2.duration.getD 0)).sum))

/-- storage.py `Storage.delete_session`: `DELETE FROM sessions WHERE id = ?`.
Because `PRAGMA foreign_keys` is never enabled by the `sqlite3` driver, the
declared cascade does not run and the tag rows are left in place. -/
def Storage.delete_session (σ : Storage) (session_id : Nat) : Storage × Bool :=
  (⟨σ.sessions.filter fun s => decide (¬s.id = session_id), σ.tags, σ.next_id⟩,
   σ.sessions.any fun s => decide (s.id = session_id))

/-- The error taxonomy of session.py (`ValueError` messages) as named by the
spec's section 7. -/
inductive SMError where
  | alreadyActive
  | emptyDescription
  | noActiveSession
  | stopFailed
deriving Repr, DecidableEq

/-- The dictionary returned by `SessionManager.start_session`. -/
structure StartView where
  id : Nat
  description : List Char
  tags : List (List Char)
  start_time : Nat
deriving Repr, DecidableEq

/-- The dictionary returned by `SessionManager.stop_session`
(`duration` is the timedelta `now - start_time`, in seconds). -/
structure StopView where
  id : Nat
  description : List Char
  duration : Int
  notes : Option (List Char)
deriving Repr, DecidableEq

/-- session.py `SessionManager.start_session`: refuse while a session is
active, then refuse a blank description, then strip the tags (dropping the
ones that strip to nothing) and create the session. -/
def SessionManager.start_session (σ : Storage) (now : Nat) (description : List Char)
    (tags : List (List Char)) : Storage × Except SMError StartView :=
  match Storage.get_active_session σ with
  | some _ => (σ, .error .alreadyActive)
  | none =>
    if (pyStrip description).isEmpty then (σ, .error .emptyDescription)
    else
      let cleaned := tags.filterMap fun t =>
        let ts := pyStrip t
        if ts.isEmpty then none else some ts
      let created := Storage.create_session σ now description cleaned
      (created.1, .ok ⟨created.2, description, cleaned, now⟩)

/-- session.py `SessionManager.stop_session`: refuse when nothing is active,
otherwise end the active session and return a view whose duration is the
wall-clock difference `now - start_time`. -/
def SessionManager.stop_session (σ : Storage) (now : Nat)
    (notes : Option (List Char)) : Storage × Except SMError StopView :=
  match Storage.get_active_session σ with
  | none => (σ, .error .noActiveSession)
  | some a =>
    let ended := Storage.end_session σ now a.1.id notes
    if ended.2 then
      (ended.1, .ok ⟨a.1.id, a.1.description, (now : Int) - (a.1.start_time : Int), notes⟩)
    else (ended.1, .error .stopFailed)

/-- session.py `SessionManager.get_current_session`: fetch the active session
and split its comma-joined tag string when that string is truthy. -/
def SessionManager.get_current_session (σ : Storage) :
    Option (Session × Option (List (List Char))) :=
  match Storage.get_active_session σ with
  | none => none
  | some (s, ts) =>
    some (s, match ts with
      | some str => if str.isEmpty then none else some (str.splitOn ',')
      | none => none)

/-- The tag re-splitting done by `list_sessions` / `search_sessions`
(empty or NULL tag string becomes the empty list). -/
def splitTags : Option (List Char) → List (List Char)
  | none => []
  | some s => if s.isEmpty then [] else s.splitOn ','

/-- The date range session.py `list_sessions` builds from `today` / `days`
(`today` wins; a falsy `days` — `None` or `0` — means no range).  Midnight is
the start of the current 86400-second day. -/
def resolveRange (now : Nat) (days : Option Nat) (today : Bool) :
    Option Nat × Option Nat :=
  if today then (some (now / 86400 * 86400), some now)
  else
    match days with
    | some d => if d = 0 then (none, none) else (some (now - d * 86400), some now)
    | none => (none, none)

/-- session.py `SessionManager.list_sessions`. -/
def SessionManager.list_sessions (σ : Storage) (now : Nat) (days : Option Nat)
    (today : Bool) (tag : Option (List Char)) (limit : Nat) :
    List (Session × List (List Char)) :=
  (Storage.get_sessions σ (resolveRange now days today).1
    (resolveRange now days today).2 tag none limit).map
    fun r => (r.1, splitTags r.2)

/-- session.py `SessionManager.search_sessions`. -/
def SessionManager.search_sessions (σ : Storage) (term : List Char) (limit : Nat) :
    List (Session × List (List Char)) :=
  (Storage.get_sessions σ none none none (some term) limit).map
    fun r => (r.1, splitTags r.2)

/-- session.py `SessionManager.delete_session`: delegates to the store. -/
def SessionManager.delete_session (σ : Storage) (session_id : Nat) : Storage × Bool :=
  Storage.delete_session σ session_id

/-- The dictionary returned by `SessionManager.get_session_stats`. -/
structure Stats where
  total_minutes : Int
  session_count : Nat
  avg_minutes : ℚ
  total_sessions_including_active : Nat
deriving Repr, DecidableEq

/-- session.py `SessionManager.get_session_stats`: list up to 1000 sessions,
keep those whose `duration` is truthy, and aggregate. -/
def SessionManager.get_session_stats (σ : Storage) (now : Nat) (days : Option Nat)
    (today : Bool) : Stats :=
  let sessions := SessionManager.list_sessions σ now days today none 1000
  let completed := sessions.filter fun r => durTruthy r.1.duration
  let total : Int := (completed.map fun r => r.1.duration.getD 0).sum
  { total_minutes := total,
    session_count := completed.length,
    avg_minutes := if 0 < completed.length then (total : ℚ) / (completed.length : ℚ) else 0,
    total_sessions_including_active := sessions.length }

/-- report.py `generate_summary`: the sessions of the period (limit 1000). -/
def ReportGenerator.reportSessions (σ : Storage) (sd ed : Option Nat) :
    List (Session × Option (List Char)) :=
  Storage.get_sessions σ sd ed none none 1000

/-- report.py `generate_summary` line 55: `[s for s in sessions if s['duration']]`. -/
def ReportGenerator.completed (σ : Storage) (sd ed : Option Nat) :
    List (Session × Option (List Char)) :=
  (ReportGenerator.reportSessions σ sd ed).filter fun r => durTruthy r.1.duration

/-- report.py `generate_summary` line 56: total minutes over the completed
sessions. -/
def ReportGenerator.total_minutes (σ : Storage) (sd ed : Option Nat) : Int :=
  ((ReportGenerator.completed σ sd ed).map fun r => r.1.duration.getD 0).sum

/-- report.py line 77: `(minutes / total_minutes * 100) if total_minutes > 0
else 0`, in exact rational arithmetic. -/
def ReportGenerator.tagPercentage (total minutes : Int) : ℚ :=
  if 0 < total then (minutes : ℚ) / (total : ℚ) * 100 else 0

/-- The sum of the per-tag percentages printed by `generate_summary(by_tag)`. -/
def ReportGenerator.tagPercentageSum (σ : Storage) (sd ed : Option Nat) : ℚ :=
  ((Storage.get_tag_summary σ sd ed).map fun r =>
    ReportGenerator.tagPercentage (ReportGenerator.total_minutes σ sd ed) r.2.2).sum

/-- One Lifecycle Service operation, with the wall-clock second at which it
runs. -/
inductive Op where
  | start (description : List Char) (tags : List (List Char))
  | stop (notes : Option (List Char))
  | getCurrent
  | list (days : Option Nat) (today : Bool) (tag : Option (List Char)) (limit : Nat)
  | search (term : List Char) (limit : Nat)
  | delete (session_id : Nat)
deriving Repr

/-- Effect of one operation on the store (queries leave it unchanged). -/
def stepOp (σ : Storage) (p : Nat × Op) : Storage :=
  match p.2 with
  | .start d tags => (SessionManager.start_session σ p.1 d tags).1
  | .stop notes => (SessionManager.stop_session σ p.1 notes).1
  | .getCurrent => σ
  | .list _ _ _ _ => σ
  | .search _ _ => σ
  | .delete i => (SessionManager.delete_session σ i).1

/-- Run a sequence of timed operations from the empty store. -/
def runOps (ops : List (Nat × Op)) : Storage :=
  ops.foldl stepOp emptyStorage

/-- Number of sessions with an absent `end_time`. -/
def activeCount (σ : Storage) : Nat :=
  (σ.sessions.filter fun s => s.end_time.isNone).length

/-- Well-formedness maintained by the AUTOINCREMENT counter: every stored
session id and tag owner id is below `next_id`, so ids are never reused. -/
def StoreWF (σ : Storage) : Prop :=
  (∀ s ∈ σ.sessions, s.id < σ.next_id) ∧ (∀ tr ∈ σ.tags, tr.1 < σ.next_id)

/-- The tag-membership test of the `IN (SELECT session_id FROM tags WHERE
tag = ?)` subquery (storage.py 203), with the query tag normalised by
`tag.lower().strip()`. -/
def hasTag (σ : Storage) (q : List Char) (s : Session) : Bool :=
  σ.tags.any fun tr => decide (tr.1 = s.id) && decide (tr.2 = pyStrip (pyLower q))

/-- Example store for the tag-filter property: three completed sessions
tagged {a}, {b} and {a, b}. -/
def exampleTagStore : Storage :=
  ⟨[⟨1, ['s'], 10, some 20, some 1, none, 10⟩,
    ⟨2, ['t'], 20, some 30, some 1, none, 20⟩,
    ⟨3, ['u'], 30, some 40, some 1, none, 30⟩],
   [(1, ['a']), (2, ['b']), (3, ['a']), (3, ['b'])], 4⟩

/-- The sessions that survive both the WHERE clause (no tag / no search
filter) and the truthy-duration test, in table order: the canonical value of
the "completed sessions" computed by `get_session_stats` and
`generate_summary` once ordering and limit are factored out. -/
def completedOf (σ : Storage) (sd ed : Option Nat) : List Session :=
  σ.sessions.filter fun s => durTruthy s.duration && sessPred σ sd ed none none s

/-- Example store with a zero-duration completed session (id 1) next to an
ordinary one (id 2, 5 minutes). -/
def exampleZeroDurStore : Storage :=
  ⟨[⟨1, ['a'], 0, some 30, some 0, none, 0⟩,
    ⟨2, ['b'], 10, some 310, some 5, none, 10⟩], [], 3⟩

/-- Example store for the percentage property: one completed 60-minute
session carrying the two tags a and b. -/
def exampleMultiTagStore : Storage :=
  ⟨[⟨1, ['w'], 0, some 3600, some 60, none, 0⟩], [(1, ['a']), (1, ['b'])], 2⟩

/-- Example store for the percentage property: one completed 60-minute
session carrying exactly one tag. -/
def exampleSingleTagStore : Storage :=
  ⟨[⟨1, ['w'], 0, some 3600, some 60, none, 0⟩], [(1, ['a'])], 2⟩

/-! ### Basic facts about the active-session query -/

theorem pickLatest_isSome (s : Session) (rest : List Session) :
    (pickLatest (s :: rest)).isSome = true := by
  cases h : pickLatest rest <;> simp [pickLatest, h] <;> split <;> simp

theorem pickLatest_mem : ∀ {l : List Session} {s : Session},
    pickLatest l = some s → s ∈ l := by
  intro l
  induction l with
  | nil => intro s h; simp [pickLatest] at h
  | cons a rest ih =>
    intro s h
    cases hr : pickLatest rest with
    | none => simp [pickLatest, hr] at h; simp [h]
    | some b =>
      simp only [pickLatest, hr] at h
      by_cases hle : b.start_time ≤ a.start_time
      · rw [if_pos hle] at h
        simp at h
        simp [h]
      · rw [if_neg hle] at h
        simp at h
        exact List.mem_cons_of_mem _ (ih (h ▸ hr))

theorem get_active_session_eq_none_iff (σ : Storage) :
    Storage.get_active_session σ = none ↔
      (σ.sessions.filter fun s => s.end_time.isNone) = [] := by
  unfold Storage.get_active_session
  cases h : σ.sessions.filter fun s => s.end_time.isNone with
  | nil => simp [pickLatest]
  | cons a rest =>
    cases hp : pickLatest (a :: rest) with
    | none => have := pickLatest_isSome a rest; rw [hp] at this; simp at this
    | some b => simp

theorem get_active_session_isSome_of_some {σ : Storage} {a}
    (h : Storage.get_active_session σ = some a) :
    (Storage.get_active_session σ).isSome = true := by rw [h]; rfl

/-! ### C5 and helpers: the active check precedes everything else in start -/

theorem start_session_of_active (σ : Storage) (now : Nat) (d : List Char)
    (tags : List (List Char)) (h : (Storage.get_active_session σ).isSome = true) :
    SessionManager.start_session σ now d tags = (σ, .error .alreadyActive) := by
  unfold SessionManager.start_session
  cases hh : Storage.get_active_session σ with
  | none => rw [hh] at h; simp at h
  | some a => rfl

/-- C5: whenever a session is active, `start` fails with `AlreadyActive` and
leaves the store unchanged, regardless of its arguments — in particular even
with an empty description, so the active-session check takes precedence over
description validation. -/
theorem start_fails_alreadyActive_when_active (σ : Storage) (now : Nat)
    (d : List Char) (tags : List (List Char)) (a : Session × Option (List Char))
    (h : Storage.get_active_session σ = some a) :
    SessionManager.start_session σ now d tags = (σ, .error .alreadyActive) :=
  start_session_of_active σ now d tags (get_active_session_isSome_of_some h)

/-- Witness for C5: in a store holding one active session, `start` with an
empty description still reports `AlreadyActive`, not `EmptyDescription`. -/
theorem start_fails_alreadyActive_when_active_witness :
    SessionManager.start_session
      ⟨[⟨1, ['w'], 5, none, none, none, 5⟩], [], 2⟩ 9 [] [['x']] =
      (⟨[⟨1, ['w'], 5, none, none, none, 5⟩], [], 2⟩, .error .alreadyActive) :=
  start_fails_alreadyActive_when_active _ 9 [] [['x']]
    (⟨1, ['w'], 5, none, none, none, 5⟩, none) (by decide)

/-! ### C6: description validation when no session is active -/

/-- C6: with no active session, `start` on a description whose trimmed form is
empty fails with `EmptyDescription` and leaves the store unchanged, while any
description with non-empty trimmed form succeeds, appending the new active
session and its cleaned tags. -/
theorem start_empty_description_check (σ : Storage) (now : Nat) (d : List Char)
    (tags : List (List Char)) (hact : Storage.get_active_session σ = none) :
    (pyStrip d = [] →
      SessionManager.start_session σ now d tags = (σ, .error .emptyDescription)) ∧
    (pyStrip d ≠ [] →
      SessionManager.start_session σ now d tags =
        (⟨σ.sessions ++ [⟨σ.next_id, d, now, none, none, none, now⟩],
          σ.tags ++ (tags.filterMap fun t =>
            if (pyStrip t).isEmpty then none else some (pyStrip t)).map
              (fun t => (σ.next_id, pyStrip (pyLower t))),
          σ.next_id + 1⟩,
         .ok ⟨σ.next_id, d,
              tags.filterMap fun t =>
                if (pyStrip t).isEmpty then none else some (pyStrip t), now⟩)) := by
  constructor
  · intro hd
    unfold SessionManager.start_session
    rw [hact]
    simp [hd]
  · intro hd
    unfold SessionManager.start_session
    rw [hact]
    have : (pyStrip d).isEmpty = false := by
      cases h : pyStrip d with
      | nil => exact absurd h hd
      | cons a t => rfl
    simp only [this, Bool.false_eq_true, if_false]
    unfold Storage.create_session
    simp

/-- Witness for C6: from the empty store, `start("   ")` fails with
`EmptyDescription` and `start("x")` succeeds. -/
theorem start_empty_description_check_witness :
    (SessionManager.start_session emptyStorage 3 [' ', ' ', ' '] [] =
      (emptyStorage, .error .emptyDescription)) ∧
    (SessionManager.start_session emptyStorage 3 ['x'] [] =
      (⟨[⟨1, ['x'], 3, none, none, none, 3⟩], [], 2⟩, .ok ⟨1, ['x'], [], 3⟩)) := by
  constructor
  · exact (start_empty_description_check emptyStorage 3 [' ', ' ', ' '] [] (by decide)).1
      (by decide)
  · have h := (start_empty_description_check emptyStorage 3 ['x'] [] (by decide)).2
      (by decide)
    rw [h]
    rfl

/-! ### C2: the inert ON DELETE CASCADE -/

/-- C2: the `tags` schema declares `ON DELETE CASCADE`, but the `sqlite3`
driver never enables foreign-key enforcement, so the cascade never runs.
Evaluating the code on the failing input — create a session tagged "docs",
then delete it — shows `delete_session` succeeds and the session vanishes
from every list query, yet the tag row for the deleted id is still present
rather than the empty set the claim requires. -/
theorem delete_session_leaves_orphan_tags :
    (Storage.delete_session (SessionManager.start_session emptyStorage 0
        ['w', 'o', 'r', 'k'] [['d', 'o', 'c', 's']]).1 1).2 = true ∧
    (Storage.delete_session (SessionManager.start_session emptyStorage 0
        ['w', 'o', 'r', 'k'] [['d', 'o', 'c', 's']]).1 1).1.tags.filter
      (fun tr => decide (tr.1 = 1)) = [(1, ['d', 'o', 'c', 's'])] ∧
    Storage.get_sessions (Storage.delete_session
        (SessionManager.start_session emptyStorage 0
          ['w', 'o', 'r', 'k'] [['d', 'o', 'c', 's']]).1 1).1
      none none none none 100 = [] := by
  refine ⟨by decide, by decide, by decide⟩

/-! ### C1: the single-active-session invariant -/

theorem length_filter_filter_le (p q : α → Bool) (l : List α) :
    ((l.filter q).filter p).length ≤ (l.filter p).length :=
  ((List.filter_sublist l).filter p).length_le

theorem activeCount_delete_le (σ : Storage) (i : Nat) :
    activeCount (Storage.delete_session σ i).1 ≤ activeCount σ :=
  length_filter_filter_le _ _ _

theorem length_filter_map_le (g : Session → Session) (p : Session → Bool)
    (h : ∀ r, p (g r) = true → p r = true) (l : List Session) :
    ((l.map g).filter p).length ≤ (l.filter p).length := by
  rw [← List.countP_eq_length_filter, ← List.countP_eq_length_filter, List.countP_map]
  exact List.countP_mono_left fun r _ hr => h r hr

theorem activeCount_end_session_le (σ : Storage) (now i : Nat)
    (notes : Option (List Char)) :
    activeCount (Storage.end_session σ now i notes).1 ≤ activeCount σ := by
  unfold Storage.end_session
  cases h : σ.sessions.find? fun r => decide (r.id = i) with
  | none => exact Nat.le_refl _
  | some s =>
    unfold activeCount
    refine length_filter_map_le _ _ ?_ _
    intro r hr
    by_cases hid : r.id = i
    · simp [hid] at hr
    · simpa [hid] using hr

theorem activeCount_start_le_one (σ : Storage) (now : Nat) (d : List Char)
    (tags : List (List Char)) (h : activeCount σ ≤ 1) :
    activeCount (SessionManager.start_session σ now d tags).1 ≤ 1 := by
  unfold SessionManager.start_session
  cases hA : Storage.get_active_session σ with
  | some a => exact h
  | none =>
    have hf : σ.sessions.filter (fun s => s.end_time.isNone) = [] :=
      (get_active_session_eq_none_iff σ).mp hA
    by_cases he : (pyStrip d).isEmpty
    · simp only [he, if_true]
      exact h
    · simp only [he, Bool.false_eq_true, if_false]
      unfold Storage.create_session activeCount
      simp [List.filter_append, hf]

theorem activeCount_stop_le (σ : Storage) (now : Nat) (notes : Option (List Char)) :
    activeCount (SessionManager.stop_session σ now notes).1 ≤ activeCount σ := by
  unfold SessionManager.stop_session
  cases hA : Storage.get_active_session σ with
  | none => exact Nat.le_refl _
  | some a =>
    simp only []
    split
    · exact activeCount_end_session_le σ now a.1.id notes
    · exact activeCount_end_session_le σ now a.1.id notes

theorem activeCount_step_le_one (σ : Storage) (p : Nat × Op)
    (h : activeCount σ ≤ 1) : activeCount (stepOp σ p) ≤ 1 := by
  obtain ⟨now, op⟩ := p
  cases op with
  | start d tags => exact activeCount_start_le_one σ now d tags h
  | stop notes => exact Nat.le_trans (activeCount_stop_le σ now notes) h
  | getCurrent => exact h
  | list days today tag limit => exact h
  | search term limit => exact h
  | delete i => exact Nat.le_trans (activeCount_delete_le σ i) h

theorem activeCount_foldl_le_one (ops : List (Nat × Op)) :
    ∀ σ : Storage, activeCount σ ≤ 1 → activeCount (ops.foldl stepOp σ) ≤ 1 := by
  induction ops with
  | nil => intro σ h; exact h
  | cons p rest ih =>
    intro σ h
    exact ih (stepOp σ p) (activeCount_step_le_one σ p h)

/-- C1: running any sequence of Lifecycle Service operations from the empty
store leaves at most one session with an absent `end_time`, and in every
state in which `getActiveSession` returns a session, `start` refuses with
`AlreadyActive` and changes nothing. -/
theorem single_active_session_invariant (ops : List (Nat × Op)) :
    activeCount (runOps ops) ≤ 1 ∧
    ∀ (σ : Storage) (now : Nat) (d : List Char) (tags : List (List Char))
      (a : Session × Option (List Char)),
      Storage.get_active_session σ = some a →
      SessionManager.start_session σ now d tags = (σ, .error .alreadyActive) := by
  constructor
  · exact activeCount_foldl_le_one ops emptyStorage (by decide)
  · intro σ now d tags a ha
    exact start_session_of_active σ now d tags (get_active_session_isSome_of_some ha)

/-- Witness for C1: a concrete start/stop/start/delete run keeps the invariant,
and a concrete active store makes the second `start` refuse. -/
theorem single_active_session_invariant_witness :
    activeCount (runOps
      [(0, .start ['a'] []), (60, .stop none), (70, .start ['b'] [['t']]),
       (80, .getCurrent), (90, .delete 2)]) ≤ 1 ∧
    SessionManager.start_session ⟨[⟨1, ['w'], 5, none, none, none, 5⟩], [], 2⟩ 9
      ['z'] [] = (⟨[⟨1, ['w'], 5, none, none, none, 5⟩], [], 2⟩, .error .alreadyActive) := by
  constructor
  · exact (single_active_session_invariant
      [(0, .start ['a'] []), (60, .stop none), (70, .start ['b'] [['t']]),
       (80, .getCurrent), (90, .delete 2)]).1
  · exact (single_active_session_invariant []).2 _ 9 ['z'] []
      (⟨1, ['w'], 5, none, none, none, 5⟩, none) (by decide)

/-! ### C3: the stored duration is the floor of the elapsed minutes -/

theorem find?_map_id_pres (g : Session → Session) (p : Session → Bool)
    (h : ∀ r, p (g r) = p r) :
    ∀ l : List Session, (l.map g).find? p = (l.find? p).map g := by
  intro l
  induction l with
  | nil => rfl
  | cons a t ih =>
    simp only [List.map_cons, List.find?_cons]
    cases hpa : p a with
    | true => rw [h a, hpa]; rfl
    | false => rw [h a, hpa]; exact ih

/-- C3: if the store holds a session found under `id` with start time `T0`,
then `endSession(id)` at time `T1 ≥ T0` succeeds and stores
`duration = (T1 − T0) / 60` — the floor of the elapsed seconds divided by
60 — together with `end_time = T1` and the given notes, and that stored
duration is never negative. -/
theorem end_session_duration_floor (σ : Storage) (id T1 : Nat)
    (notes : Option (List Char)) (s : Session)
    (hfind : σ.sessions.find? (fun r => decide (r.id = id)) = some s)
    (hle : s.start_time ≤ T1) :
    (Storage.end_session σ T1 id notes).2 = true ∧
    (Storage.end_session σ T1 id notes).1.sessions.find? (fun r => decide (r.id = id)) =
      some { s with end_time := some T1,
                    duration := some (((T1 - s.start_time) / 60 : Nat) : Int),
                    notes := notes } ∧
    (0 : Int) ≤ (((T1 - s.start_time) / 60 : Nat) : Int) := by
  have hdur : pyDurMinutes s.start_time T1 = (((T1 - s.start_time) / 60 : Nat) : Int) := by
    unfold pyDurMinutes
    rw [if_pos hle]
  have hps : s.id = id := by
    have := List.find?_some hfind
    simpa using this
  unfold Storage.end_session
  rw [hfind]
  refine ⟨rfl, ?_, Int.natCast_nonneg _⟩
  have hpres : ∀ r : Session,
      (fun r : Session => decide (r.id = id))
        (if r.id = id then
          { r with end_time := some T1,
                   duration := some (pyDurMinutes s.start_time T1),
                   notes := notes }
         else r) = decide (r.id = id) := by
    intro r
    by_cases hid : r.id = id
    · simp [hid]
    · simp [hid]
  rw [find?_map_id_pres _ _ hpres σ.sessions, hfind]
  simp [hps, hdur]

/-- Witness for C3: a session started at second 100 and stopped at second
3730 stores duration `(3730 − 100) / 60 = 60` minutes. -/
theorem end_session_duration_floor_witness :
    (Storage.end_session ⟨[⟨7, ['w'], 100, none, none, none, 100⟩], [], 8⟩
      3730 7 none).2 = true ∧
    (Storage.end_session ⟨[⟨7, ['w'], 100, none, none, none, 100⟩], [], 8⟩
      3730 7 none).1.sessions.find? (fun r => decide (r.id = 7)) =
      some ⟨7, ['w'], 100, some 3730, some 60, none, 100⟩ ∧
    (0 : Int) ≤ ((3630 / 60 : Nat) : Int) := by
  have h := end_session_duration_floor
    ⟨[⟨7, ['w'], 100, none, none, none, 100⟩], [], 8⟩ 7 3730 none
    ⟨7, ['w'], 100, none, none, none, 100⟩ (by decide) (by decide)
  exact ⟨h.1, h.2.1, h.2.2⟩

/-! ### Character-level facts about ASCII lower-casing and whitespace -/

theorem char_toNat_ofNat_of_valid (n : Nat) (h : n < 55296) :
    (Char.ofNat n).toNat = n := by
  have hv : n.isValidChar := Or.inl h
  unfold Char.ofNat
  rw [dif_pos hv]
  rfl

theorem char_toNat_inj {c d : Char} (h : c.toNat = d.toNat) : c = d := by
  rw [← Char.ofNat_toNat c, h, Char.ofNat_toNat]

theorem toNat_toLower (c : Char) :
    (Char.toLower c).toNat =
      if 65 ≤ c.toNat ∧ c.toNat ≤ 90 then c.toNat + 32 else c.toNat := by
  by_cases h : 65 ≤ c.toNat ∧ c.toNat ≤ 90
  · simp only [Char.toLower, ge_iff_le, h, and_self, if_true, if_pos h]
    exact char_toNat_ofNat_of_valid _ (by omega)
  · simp only [Char.toLower, ge_iff_le, if_neg h]

theorem pyIsSpace_toLower (c : Char) : pyIsSpace (Char.toLower c) = pyIsSpace c := by
  unfold pyIsSpace
  rw [toNat_toLower]
  by_cases h : 65 ≤ c.toNat ∧ c.toNat ≤ 90
  · rw [if_pos h]
    have h1 : ¬(c.toNat + 32 = 32) := by omega
    have h2 : ¬(c.toNat + 32 ≤ 13) := by omega
    have h3 : ¬(c.toNat = 32) := by omega
    have h4 : ¬(c.toNat ≤ 13) := by omega
    simp [h1, h2, h3, h4]
  · rw [if_neg h]

theorem toLower_eq_comma {c : Char} (h : Char.toLower c = ',') : c = ',' := by
  have ht := congrArg Char.toNat h
  rw [toNat_toLower] at ht
  have hcomma : (',' : Char).toNat = 44 := by decide
  by_cases hc : 65 ≤ c.toNat ∧ c.toNat ≤ 90
  · rw [if_pos hc] at ht
    omega
  · rw [if_neg hc] at ht
    exact char_toNat_inj ht

theorem toLower_upper_ne {c : Char} (h : 65 ≤ c.toNat ∧ c.toNat ≤ 90) :
    Char.toLower c ≠ c := by
  intro he
  have ht := congrArg Char.toNat he
  rw [toNat_toLower, if_pos h] at ht
  omega

/-! ### pyStrip is idempotent and commutes with pyLower -/

theorem head?_dropWhile_false (p : α → Bool) (l : List α) (c : α)
    (h : (l.dropWhile p).head? = some c) : p c = false := by
  induction l with
  | nil => simp [List.dropWhile] at h
  | cons a t ih =>
    rw [List.dropWhile_cons] at h
    by_cases hpa : p a = true
    · rw [if_pos hpa] at h
      exact ih h
    · rw [if_neg hpa] at h
      simp at h
      rw [← h]
      exact Bool.eq_false_iff.mpr hpa

theorem dropWhile_eq_self_of_head (p : α → Bool) (l : List α)
    (h : ∀ c, l.head? = some c → p c = false) : l.dropWhile p = l := by
  cases l with
  | nil => rfl
  | cons a t =>
    rw [List.dropWhile_cons, h a rfl]
    simp

theorem dropWhile_idem (p : α → Bool) (l : List α) :
    (l.dropWhile p).dropWhile p = l.dropWhile p :=
  dropWhile_eq_self_of_head p _ (fun c hc => head?_dropWhile_false p l c hc)

theorem reverse_dropWhile_reverse_prefix (p : α → Bool) (m : List α) :
    (m.reverse.dropWhile p).reverse <+: m := by
  have h := List.dropWhile_suffix (l := m.reverse) p
  have h2 := List.reverse_prefix.mpr h
  simpa using h2

theorem head?_of_initSeg {l₁ l₂ : List α} (h : l₁ <+: l₂) {c : α}
    (hc : l₁.head? = some c) : l₂.head? = some c := by
  obtain ⟨t, rfl⟩ := h
  cases l₁ with
  | nil => simp at hc
  | cons a u => simpa using hc

theorem pyStrip_head_not_space (l : List Char) (c : Char)
    (h : (pyStrip l).head? = some c) : pyIsSpace c = false := by
  have hp : pyStrip l <+: l.dropWhile pyIsSpace :=
    reverse_dropWhile_reverse_prefix pyIsSpace (l.dropWhile pyIsSpace)
  exact head?_dropWhile_false _ _ _ (head?_of_initSeg hp h)

theorem dropWhile_pyStrip (l : List Char) :
    (pyStrip l).dropWhile pyIsSpace = pyStrip l :=
  dropWhile_eq_self_of_head _ _ (fun c hc => pyStrip_head_not_space l c hc)

theorem reverse_pyStrip (l : List Char) :
    (pyStrip l).reverse = (l.dropWhile pyIsSpace).reverse.dropWhile pyIsSpace := by
  unfold pyStrip
  rw [List.reverse_reverse]

theorem pyStrip_idem (l : List Char) : pyStrip (pyStrip l) = pyStrip l := by
  rw [show pyStrip (pyStrip l) =
      (((pyStrip l).dropWhile pyIsSpace).reverse.dropWhile pyIsSpace).reverse from rfl]
  rw [dropWhile_pyStrip, reverse_pyStrip, dropWhile_idem]
  rfl

theorem pyStrip_pyLower_comm (l : List Char) :
    pyStrip (pyLower l) = pyLower (pyStrip l) := by
  have hfp : (pyIsSpace ∘ Char.toLower) = pyIsSpace :=
    funext fun c => pyIsSpace_toLower c
  unfold pyStrip pyLower
  rw [List.dropWhile_map, hfp, ← List.map_reverse, List.dropWhile_map, hfp,
    ← List.map_reverse]

/-- `tag.strip().lower().strip() = tag.strip().lower()`: the storage layer's
second strip is a no-op on tags already cleaned by the Lifecycle Service. -/
theorem pyStrip_pyLower_pyStrip (t : List Char) :
    pyStrip (pyLower (pyStrip t)) = pyLower (pyStrip t) := by
  rw [pyStrip_pyLower_comm, pyStrip_idem]

theorem mem_pyStrip {c : Char} {l : List Char} (h : c ∈ pyStrip l) : c ∈ l := by
  unfold pyStrip at h
  rw [List.mem_reverse] at h
  have h2 := (List.dropWhile_sublist _).subset h
  rw [List.mem_reverse] at h2
  exact (List.dropWhile_sublist _).subset h2

theorem comma_not_mem_pyLower {l : List Char} (h : (',' : Char) ∉ l) :
    (',' : Char) ∉ pyLower l := by
  intro hmem
  unfold pyLower at hmem
  rw [List.mem_map] at hmem
  obtain ⟨c, hc, he⟩ := hmem
  rw [toLower_eq_comma he] at hc
  exact h hc

theorem map_eq_self_forall {f : α → α} :
    ∀ {l : List α}, l.map f = l → ∀ x ∈ l, f x = x := by
  intro l
  induction l with
  | nil => intro _ x hx; simp at hx
  | cons a t ih =>
    intro h x hx
    rw [List.map_cons] at h
    injection h with h1 h2
    rcases List.mem_cons.mp hx with hxa | hxt
    · rw [hxa]; exact h1
    · exact ih h2 x hxt

theorem pyLower_ne_self_of_upper {l : List Char} {c : Char} (hc : c ∈ l)
    (h : 65 ≤ c.toNat ∧ c.toNat ≤ 90) : pyLower l ≠ l := by
  intro he
  exact toLower_upper_ne h (map_eq_self_forall he c hc)

/-! ### C4 and C10: tag round-trips through store and views -/

theorem intercalate_singleton (sep x : List Char) :
    List.intercalate sep [x] = x := by
  simp [List.intercalate, List.intersperse]

theorem isEmpty_intercalate_comma_false {x : List Char} (xs : List (List Char))
    (hx : x ≠ []) : (List.intercalate [','] (x :: xs)).isEmpty = false := by
  cases xs with
  | nil =>
    rw [intercalate_singleton]
    cases x with
    | nil => exact absurd rfl hx
    | cons a t => rfl
  | cons y ys =>
    cases x with
    | nil => exact absurd rfl hx
    | cons a t => rfl

/-- After a successful `start`, `getCurrent` returns the freshly created
session together with the split of the comma-joined stored tags. -/
theorem get_current_after_start (σ : Storage) (now : Nat) (d : List Char)
    (tags : List (List Char)) (cl : List (List Char))
    (hWF2 : ∀ tr ∈ σ.tags, tr.1 < σ.next_id)
    (hact : Storage.get_active_session σ = none)
    (hd : (pyStrip d).isEmpty = false)
    (hcl : (tags.filterMap fun t =>
        if (pyStrip t).isEmpty then none else some (pyStrip t)) = cl)
    (hne : cl ≠ [])
    (hne2 : (List.intercalate [','] (cl.map fun t => pyStrip (pyLower t))).isEmpty = false) :
    SessionManager.get_current_session (SessionManager.start_session σ now d tags).1 =
      some (⟨σ.next_id, d, now, none, none, none, now⟩,
        some ((List.intercalate [','] (cl.map fun t => pyStrip (pyLower t))).splitOn ',')) := by
  unfold SessionManager.start_session
  rw [hact]
  simp only [hd, Bool.false_eq_true, if_false]
  unfold Storage.create_session
  simp only [hcl]
  unfold SessionManager.get_current_session Storage.get_active_session
  have hfilter : ((σ.sessions ++ [(⟨σ.next_id, d, now, none, none, none, now⟩ : Session)]).filter
      fun s => s.end_time.isNone) = [(⟨σ.next_id, d, now, none, none, none, now⟩ : Session)] := by
    rw [List.filter_append, (get_active_session_eq_none_iff σ).mp hact]
    rfl
  rw [hfilter]
  simp only [pickLatest]
  unfold tagsConcat
  simp only [List.filter_append]
  have h1 : (σ.tags.filter fun tr => decide (tr.1 = σ.next_id)) = [] := by
    rw [List.filter_eq_nil_iff]
    intro tr htr
    have := hWF2 tr htr
    simp
    omega
  have h2 : ((cl.map fun t => (σ.next_id, pyStrip (pyLower t))).filter
      fun tr => decide (tr.1 = σ.next_id)) =
      cl.map fun t => (σ.next_id, pyStrip (pyLower t)) := by
    rw [List.filter_eq_self]
    intro a ha
    rw [List.mem_map] at ha
    obtain ⟨t, _, rfl⟩ := ha
    simp
  rw [h1, h2]
  simp only [List.nil_append, List.map_map]
  have hcomp : (Prod.snd ∘ fun t : List Char => (σ.next_id, pyStrip (pyLower t))) =
      fun t => pyStrip (pyLower t) := rfl
  rw [hcomp]
  have hisEmpty : ((cl.map fun t => pyStrip (pyLower t)).isEmpty) = false := by
    cases hc : cl with
    | nil => exact absurd hc hne
    | cons c0 cs => rw [List.map_cons]; rfl
  rw [hisEmpty]
  simp only [Bool.false_eq_true, if_false]
  rw [hne2]
  simp only [Bool.false_eq_true, if_false]

theorem isEmpty_false_of_ne_nil {l : List α} (h : l ≠ []) : l.isEmpty = false := by
  cases l with
  | nil => exact absurd rfl h
  | cons a t => rfl

theorem pyLower_ne_nil {l : List Char} (h : l ≠ []) : pyLower l ≠ [] := by
  cases l with
  | nil => exact absurd rfl h
  | cons a t => simp [pyLower]

theorem comma_not_mem_norm {t : List Char} (h : (',' : Char) ∉ t) :
    (',' : Char) ∉ pyLower (pyStrip t) :=
  comma_not_mem_pyLower fun hm => h (mem_pyStrip hm)

/-- C4 (amended): for a description and two tags whose trimmed forms are
non-empty and which contain no comma, `start(d, [t1, t2])` followed by
`getCurrent()` returns the new session with tag list
`[t1.trim().lower(), t2.trim().lower()]` in insertion order.  (Tags containing
a comma break the round-trip because the store hands the Lifecycle Service a
comma-joined string, see the counterexample.) -/
theorem start_getCurrent_tag_roundtrip (σ : Storage) (now : Nat) (d t1 t2 : List Char)
    (hWF : StoreWF σ)
    (hact : Storage.get_active_session σ = none)
    (hd : pyStrip d ≠ [])
    (h1 : pyStrip t1 ≠ []) (h2 : pyStrip t2 ≠ [])
    (hc1 : (',' : Char) ∉ t1) (hc2 : (',' : Char) ∉ t2) :
    SessionManager.get_current_session
        (SessionManager.start_session σ now d [t1, t2]).1 =
      some (⟨σ.next_id, d, now, none, none, none, now⟩,
        some [pyLower (pyStrip t1), pyLower (pyStrip t2)]) := by
  have hd' := isEmpty_false_of_ne_nil hd
  have h1' := isEmpty_false_of_ne_nil h1
  have h2' := isEmpty_false_of_ne_nil h2
  have hcl : ([t1, t2].filterMap fun t =>
      if (pyStrip t).isEmpty then none else some (pyStrip t)) =
      [pyStrip t1, pyStrip t2] := by
    simp [h1, h2]
  have hmap : ([pyStrip t1, pyStrip t2].map fun t => pyStrip (pyLower t)) =
      [pyLower (pyStrip t1), pyLower (pyStrip t2)] := by
    simp [pyStrip_pyLower_pyStrip]
  have hne2 : (List.intercalate [',']
      ([pyStrip t1, pyStrip t2].map fun t => pyStrip (pyLower t))).isEmpty = false := by
    rw [hmap]
    exact isEmpty_intercalate_comma_false _ (pyLower_ne_nil h1)
  have hmain := get_current_after_start σ now d [t1, t2] [pyStrip t1, pyStrip t2]
    hWF.2 hact hd' hcl (by simp) hne2
  rw [hmain, hmap]
  have hsplit : (List.intercalate [',']
      [pyLower (pyStrip t1), pyLower (pyStrip t2)]).splitOn ',' =
      [pyLower (pyStrip t1), pyLower (pyStrip t2)] := by
    apply List.splitOn_intercalate
    · intro l hl
      rcases List.mem_cons.mp hl with hl1 | hl2
      · rw [hl1]; exact comma_not_mem_norm hc1
      · rw [List.mem_singleton.mp hl2]; exact comma_not_mem_norm hc2
    · simp
  rw [hsplit]

/-- Witness for C4 (amended): from the empty store,
`start("w", ["A", "b"])` then `getCurrent()` yields tags `["a", "b"]`. -/
theorem start_getCurrent_tag_roundtrip_witness :
    SessionManager.get_current_session
        (SessionManager.start_session emptyStorage 5 ['w'] [['A'], ['b']]).1 =
      some (⟨1, ['w'], 5, none, none, none, 5⟩, some [['a'], ['b']]) := by
  have h := start_getCurrent_tag_roundtrip emptyStorage 5 ['w'] ['A'] ['b']
    (by unfold StoreWF; decide) (by decide) (by decide) (by decide) (by decide)
    (by decide) (by decide)
  rw [h]
  rfl

/-- C4 counterexample: the claim as stated fails for a tag containing a comma.
`start("w", ["a,b", "c"])` then `getCurrent()` yields the three tags
`["a", "b", "c"]`, not the claimed `["a,b", "c"]` (the trimmed, lower-cased
originals). -/
theorem start_getCurrent_tag_roundtrip_counterexample :
    (SessionManager.get_current_session
        (SessionManager.start_session emptyStorage 0 ['w'] [['a', ',', 'b'], ['c']]).1).map
      (fun r => r.2) = some (some [['a'], ['b'], ['c']]) ∧
    some (some [['a'], ['b'], ['c']]) ≠
      some (some [pyLower (pyStrip ['a', ',', 'b']), pyLower (pyStrip ['c'])]) :=
  ⟨by decide, by decide⟩

/-- C10: for a tag whose trimmed form is non-empty, comma-free, and contains
an upper-case letter, the view returned directly by `start` holds the tag
trimmed but not lower-cased, while `getCurrent` — like every query that reads
the store — returns it lower-cased, so the two tag lists differ. -/
theorem start_view_tags_not_lowercased (σ : Storage) (now : Nat) (d t : List Char)
    (hWF : StoreWF σ)
    (hact : Storage.get_active_session σ = none)
    (hd : pyStrip d ≠ [])
    (ht : pyStrip t ≠ [])
    (hcomma : (',' : Char) ∉ t)
    (hupper : ∃ c ∈ pyStrip t, 65 ≤ c.toNat ∧ c.toNat ≤ 90) :
    (SessionManager.start_session σ now d [t]).2 =
      .ok ⟨σ.next_id, d, [pyStrip t], now⟩ ∧
    SessionManager.get_current_session (SessionManager.start_session σ now d [t]).1 =
      some (⟨σ.next_id, d, now, none, none, none, now⟩, some [pyLower (pyStrip t)]) ∧
    [pyLower (pyStrip t)] ≠ [pyStrip t] := by
  have hd' := isEmpty_false_of_ne_nil hd
  have ht' := isEmpty_false_of_ne_nil ht
  refine ⟨?_, ?_, ?_⟩
  · unfold SessionManager.start_session
    rw [hact]
    simp only [hd', Bool.false_eq_true, if_false]
    simp [Storage.create_session, ht]
  · have hcl : ([t].filterMap fun x =>
        if (pyStrip x).isEmpty then none else some (pyStrip x)) = [pyStrip t] := by
      simp [ht]
    have hmap : ([pyStrip t].map fun x => pyStrip (pyLower x)) = [pyLower (pyStrip t)] := by
      simp [pyStrip_pyLower_pyStrip]
    have hne2 : (List.intercalate [',']
        ([pyStrip t].map fun x => pyStrip (pyLower x))).isEmpty = false := by
      rw [hmap]
      exact isEmpty_intercalate_comma_false _ (pyLower_ne_nil ht)
    have hmain := get_current_after_start σ now d [t] [pyStrip t]
      hWF.2 hact hd' hcl (by simp) hne2
    rw [hmain, hmap]
    have hsplit : (List.intercalate [','] [pyLower (pyStrip t)]).splitOn ',' =
        [pyLower (pyStrip t)] := by
      apply List.splitOn_intercalate
      · intro l hl
        rw [List.mem_singleton.mp hl]
        exact comma_not_mem_norm hcomma
      · simp
    rw [hsplit]
  · obtain ⟨c, hcmem, hcu⟩ := hupper
    intro he
    injection he with he1 _
    exact pyLower_ne_self_of_upper hcmem hcu he1

/-- Witness for C10: tag "Api" comes back as "Api" from `start` but as "api"
from `getCurrent`. -/
theorem start_view_tags_not_lowercased_witness :
    (SessionManager.start_session emptyStorage 5 ['w'] [['A', 'p', 'i']]).2 =
      .ok ⟨1, ['w'], [['A', 'p', 'i']], 5⟩ ∧
    SessionManager.get_current_session
        (SessionManager.start_session emptyStorage 5 ['w'] [['A', 'p', 'i']]).1 =
      some (⟨1, ['w'], 5, none, none, none, 5⟩, some [['a', 'p', 'i']]) ∧
    [['a', 'p', 'i']] ≠ [['A', 'p', 'i']] := by
  have h := start_view_tags_not_lowercased emptyStorage 5 ['w'] ['A', 'p', 'i']
    (by unfold StoreWF; decide) (by decide) (by decide) (by decide) (by decide)
    ⟨'A', by decide, by decide⟩
  refine ⟨?_, ?_, by decide⟩
  · rw [h.1]
    rfl
  · rw [h.2.1]
    rfl

/-! ### C7: the tag filter of list queries -/

theorem get_sessions_mem_pred (σ : Storage) (sd ed : Option Nat)
    (tag term : Option (List Char)) (limit : Nat) :
    ∀ r ∈ Storage.get_sessions σ sd ed tag term limit,
      r.1 ∈ σ.sessions ∧ sessPred σ sd ed tag term r.1 = true := by
  intro r hr
  unfold Storage.get_sessions at hr
  rw [List.mem_map] at hr
  obtain ⟨s, hs, rfl⟩ := hr
  have hs2 : s ∈ List.insertionSort startDescR
      (σ.sessions.filter (sessPred σ sd ed tag term)) :=
    List.mem_of_mem_take hs
  rw [List.mem_insertionSort] at hs2
  exact ⟨(List.mem_filter.mp hs2).1, (List.mem_filter.mp hs2).2⟩

theorem get_sessions_sorted (σ : Storage) (sd ed : Option Nat)
    (tag term : Option (List Char)) (limit : Nat) :
    (Storage.get_sessions σ sd ed tag term limit).Pairwise
      (fun a b => b.1.start_time ≤ a.1.start_time) := by
  unfold Storage.get_sessions
  refine List.Pairwise.map _ (fun a b hab => hab) ?_
  refine List.Pairwise.sublist (List.take_sublist _ _) ?_
  exact List.sorted_insertionSort startDescR _

theorem get_sessions_length_le (σ : Storage) (sd ed : Option Nat)
    (tag term : Option (List Char)) (limit : Nat) :
    (Storage.get_sessions σ sd ed tag term limit).length ≤ limit := by
  unfold Storage.get_sessions
  rw [List.length_map]
  exact List.length_take_le _ _

theorem get_sessions_complete (σ : Storage) (sd ed : Option Nat)
    (tag term : Option (List Char)) (limit : Nat)
    (hlim : (σ.sessions.filter (sessPred σ sd ed tag term)).length ≤ limit) :
    ∀ s ∈ σ.sessions, sessPred σ sd ed tag term s = true →
      (s, tagsConcat σ s.id) ∈ Storage.get_sessions σ sd ed tag term limit := by
  intro s hs hp
  unfold Storage.get_sessions
  have hlen : (List.insertionSort startDescR
      (σ.sessions.filter (sessPred σ sd ed tag term))).length =
      (σ.sessions.filter (sessPred σ sd ed tag term)).length :=
    (List.perm_insertionSort startDescR _).length_eq
  rw [List.take_of_length_le (by rw [hlen]; exact hlim)]
  rw [List.mem_map]
  refine ⟨s, ?_, rfl⟩
  rw [List.mem_insertionSort]
  exact List.mem_filter.mpr ⟨hs, hp⟩

theorem sessPred_tag_only (σ : Storage) (q : List Char) (hq : q ≠ []) :
    sessPred σ none none (some q) none = hasTag σ q := by
  funext s
  unfold sessPred hasTag dateOkB strTruthy
  simp [isEmpty_false_of_ne_nil hq]

/-- C7: `list(tag=q)` (with a non-empty tag) returns only sessions holding a
tag row equal to the normalised query tag, returns all of them whenever they
fit inside the limit, orders them by start time descending, and never exceeds
the limit. -/
theorem list_tag_filter_exact (σ : Storage) (now : Nat) (q : List Char)
    (limit : Nat) (hq : q ≠ []) :
    (∀ r ∈ SessionManager.list_sessions σ now none false (some q) limit,
       r.1 ∈ σ.sessions ∧ hasTag σ q r.1 = true) ∧
    ((σ.sessions.filter fun s => hasTag σ q s).length ≤ limit →
      ∀ s ∈ σ.sessions, hasTag σ q s = true →
        (s, splitTags (tagsConcat σ s.id)) ∈
          SessionManager.list_sessions σ now none false (some q) limit) ∧
    (SessionManager.list_sessions σ now none false (some q) limit).Pairwise
      (fun a b => b.1.start_time ≤ a.1.start_time) ∧
    (SessionManager.list_sessions σ now none false (some q) limit).length ≤ limit := by
  have hl : SessionManager.list_sessions σ now none false (some q) limit =
      (Storage.get_sessions σ none none (some q) none limit).map
        (fun r => (r.1, splitTags r.2)) := rfl
  have hpred := sessPred_tag_only σ q hq
  refine ⟨?_, ?_, ?_, ?_⟩
  · intro r hr
    rw [hl, List.mem_map] at hr
    obtain ⟨r0, hr0, rfl⟩ := hr
    have h := get_sessions_mem_pred σ none none (some q) none limit r0 hr0
    rw [hpred] at h
    exact h
  · intro hlim s hs hp
    rw [hl, List.mem_map]
    refine ⟨(s, tagsConcat σ s.id), ?_, rfl⟩
    apply get_sessions_complete σ none none (some q) none limit
    · rw [hpred]; exact hlim
    · exact hs
    · rw [hpred]; exact hp
  · rw [hl]
    refine List.Pairwise.map _ (fun a b hab => hab) ?_
    exact get_sessions_sorted σ none none (some q) none limit
  · rw [hl, List.length_map]
    exact get_sessions_length_le σ none none (some q) none limit

/-- Witness for C7: among sessions tagged {a}, {b}, {a,b}, the query
`list(tag="a")` returns exactly the two sessions tagged a or a,b (ids 3 and
1, newest first), sorted descending and within the limit. -/
theorem list_tag_filter_exact_witness :
    ((SessionManager.list_sessions exampleTagStore 0 none false (some ['a']) 50).map
      fun r => r.1.id) = [3, 1] ∧
    (SessionManager.list_sessions exampleTagStore 0 none false (some ['a']) 50).Pairwise
      (fun a b => b.1.start_time ≤ a.1.start_time) ∧
    (SessionManager.list_sessions exampleTagStore 0 none false (some ['a']) 50).length ≤ 50 := by
  have h := list_tag_filter_exact exampleTagStore 0 ['a'] 50 (by decide)
  exact ⟨by decide, h.2.2.1, h.2.2.2⟩

/-! ### C9: zero-duration sessions and the truthiness test -/

theorem get_sessions_completed_perm (σ : Storage) (sd ed : Option Nat)
    (limit : Nat) (hlen : σ.sessions.length ≤ limit) :
    List.Perm (((Storage.get_sessions σ sd ed none none limit).filter
        fun r => durTruthy r.1.duration).map Prod.fst)
      (completedOf σ sd ed) := by
  unfold Storage.get_sessions completedOf
  have hlen2 : (List.insertionSort startDescR
      (σ.sessions.filter (sessPred σ sd ed none none))).length ≤ limit := by
    rw [(List.perm_insertionSort startDescR _).length_eq]
    exact Nat.le_trans (List.length_filter_le _ _) hlen
  rw [List.take_of_length_le hlen2]
  rw [List.filter_map, List.map_map]
  have hcomp1 : ((fun r : Session × Option (List Char) => durTruthy r.1.duration) ∘
      fun s : Session => (s, tagsConcat σ s.id)) = fun s => durTruthy s.duration := rfl
  have hcomp2 : (Prod.fst ∘ fun s : Session => (s, tagsConcat σ s.id)) =
      fun s : Session => s := rfl
  rw [hcomp1, hcomp2, List.map_id']
  have hperm := (List.perm_insertionSort startDescR
      (σ.sessions.filter (sessPred σ sd ed none none))).filter
      (fun s => durTruthy s.duration)
  refine hperm.trans ?_
  rw [List.filter_filter]

theorem list_sessions_completed_perm (σ : Storage) (now : Nat)
    (days : Option Nat) (today : Bool) (limit : Nat)
    (hlen : σ.sessions.length ≤ limit) :
    List.Perm (((SessionManager.list_sessions σ now days today none limit).filter
        fun r => durTruthy r.1.duration).map Prod.fst)
      (completedOf σ (resolveRange now days today).1 (resolveRange now days today).2) := by
  have hl : SessionManager.list_sessions σ now days today none limit =
      (Storage.get_sessions σ (resolveRange now days today).1
        (resolveRange now days today).2 none none limit).map
        (fun r => (r.1, splitTags r.2)) := rfl
  rw [hl, List.filter_map, List.map_map]
  have hcomp1 : ((fun r : Session × List (List Char) => durTruthy r.1.duration) ∘
      fun r : Session × Option (List Char) => (r.1, splitTags r.2)) =
      fun r : Session × Option (List Char) => durTruthy r.1.duration := rfl
  have hcomp2 : ((Prod.fst : Session × List (List Char) → Session) ∘
      fun r : Session × Option (List Char) => (r.1, splitTags r.2)) =
      (Prod.fst : Session × Option (List Char) → Session) := rfl
  rw [hcomp1, hcomp2]
  exact get_sessions_completed_perm σ _ _ limit hlen

theorem report_completed_length (σ : Storage) (sd ed : Option Nat)
    (hlen : σ.sessions.length ≤ 1000) :
    (ReportGenerator.completed σ sd ed).length = (completedOf σ sd ed).length := by
  have h := (get_sessions_completed_perm σ sd ed 1000 hlen).length_eq
  rwa [List.length_map] at h

theorem report_total_minutes_eq (σ : Storage) (sd ed : Option Nat)
    (hlen : σ.sessions.length ≤ 1000) :
    ReportGenerator.total_minutes σ sd ed =
      ((completedOf σ sd ed).map fun s => s.duration.getD 0).sum := by
  have h := ((get_sessions_completed_perm σ sd ed 1000 hlen).map
    (fun s : Session => s.duration.getD 0)).sum_eq
  rw [List.map_map] at h
  exact h

theorem get_session_stats_normal (σ : Storage) (now : Nat) (days : Option Nat)
    (today : Bool) (hlen : σ.sessions.length ≤ 1000) :
    (SessionManager.get_session_stats σ now days today).session_count =
      (completedOf σ (resolveRange now days today).1 (resolveRange now days today).2).length ∧
    (SessionManager.get_session_stats σ now days today).total_minutes =
      ((completedOf σ (resolveRange now days today).1
        (resolveRange now days today).2).map fun s => s.duration.getD 0).sum ∧
    (SessionManager.get_session_stats σ now days today).avg_minutes =
      (if 0 < (completedOf σ (resolveRange now days today).1
          (resolveRange now days today).2).length then
        ((((completedOf σ (resolveRange now days today).1
          (resolveRange now days today).2).map fun s => s.duration.getD 0).sum : Int) : ℚ) /
        ((completedOf σ (resolveRange now days today).1
          (resolveRange now days today).2).length : ℚ)
      else 0) := by
  have hperm := list_sessions_completed_perm σ now days today 1000 hlen
  have hcount : ((SessionManager.list_sessions σ now days today none 1000).filter
      fun r => durTruthy r.1.duration).length =
      (completedOf σ (resolveRange now days today).1
        (resolveRange now days today).2).length := by
    have h := hperm.length_eq
    rwa [List.length_map] at h
  have htot : (((SessionManager.list_sessions σ now days today none 1000).filter
      fun r => durTruthy r.1.duration).map fun r => r.1.duration.getD 0).sum =
      ((completedOf σ (resolveRange now days today).1
        (resolveRange now days today).2).map fun s => s.duration.getD 0).sum := by
    have h := (hperm.map (fun s : Session => s.duration.getD 0)).sum_eq
    rw [List.map_map] at h
    exact h
  refine ⟨hcount, htot, ?_⟩
  show (if 0 < ((SessionManager.list_sessions σ now days today none 1000).filter
      fun r => durTruthy r.1.duration).length then
      (((((SessionManager.list_sessions σ now days today none 1000).filter
        fun r => durTruthy r.1.duration).map fun r => r.1.duration.getD 0).sum : Int) : ℚ) /
      (((SessionManager.list_sessions σ now days today none 1000).filter
        fun r => durTruthy r.1.duration).length : ℚ)
    else 0) = _
  rw [hcount, htot]

theorem sessPred_delete (σ : Storage) (i : Nat) (sd ed : Option Nat) :
    sessPred (SessionManager.delete_session σ i).1 sd ed none none =
      sessPred σ sd ed none none := by
  funext s
  rfl

theorem completedOf_delete (σ : Storage) (i : Nat) (sd ed : Option Nat)
    (h0 : ∀ s ∈ σ.sessions, s.id = i → s.duration = some 0) :
    completedOf (SessionManager.delete_session σ i).1 sd ed = completedOf σ sd ed := by
  unfold completedOf
  simp only [sessPred_delete]
  show (σ.sessions.filter fun s => decide (¬s.id = i)).filter
      (fun s => durTruthy s.duration && sessPred σ sd ed none none s) =
    σ.sessions.filter fun s => durTruthy s.duration && sessPred σ sd ed none none s
  rw [List.filter_filter]
  apply List.filter_congr
  intro s hs
  by_cases hid : s.id = i
  · have hdur := h0 s hs hid
    have hfalse : durTruthy s.duration = false := by rw [hdur]; rfl
    simp [hfalse]
  · simp [hid]

/-- C9: a completed session stored with `duration = 0` (stopped within a
minute of starting) is excluded from the completed-session count, the total
minutes and the average of both `getStats` and the report summary, because
completion is tested by the truthiness of the duration (0 is falsy), not by
its presence: no session with duration 0 ever reaches a completed list, and
deleting every session with a given id whose duration is 0 changes none of
those aggregates. -/
theorem zero_duration_sessions_excluded (σ : Storage) (i now : Nat)
    (days : Option Nat) (today : Bool) (sd ed : Option Nat)
    (h0 : ∀ s ∈ σ.sessions, s.id = i → s.duration = some 0)
    (hlen : σ.sessions.length ≤ 1000) :
    (∀ r ∈ ReportGenerator.completed σ sd ed, ¬r.1.duration = some 0) ∧
    (∀ r ∈ (SessionManager.list_sessions σ now days today none 1000).filter
        (fun r => durTruthy r.1.duration), ¬r.1.duration = some 0) ∧
    (SessionManager.get_session_stats (SessionManager.delete_session σ i).1
        now days today).session_count =
      (SessionManager.get_session_stats σ now days today).session_count ∧
    (SessionManager.get_session_stats (SessionManager.delete_session σ i).1
        now days today).total_minutes =
      (SessionManager.get_session_stats σ now days today).total_minutes ∧
    (SessionManager.get_session_stats (SessionManager.delete_session σ i).1
        now days today).avg_minutes =
      (SessionManager.get_session_stats σ now days today).avg_minutes ∧
    (ReportGenerator.completed (SessionManager.delete_session σ i).1 sd ed).length =
      (ReportGenerator.completed σ sd ed).length ∧
    ReportGenerator.total_minutes (SessionManager.delete_session σ i).1 sd ed =
      ReportGenerator.total_minutes σ sd ed := by
  have hnot : ∀ r : Session × Option (List Char),
      durTruthy r.1.duration = true → ¬r.1.duration = some 0 := by
    intro r hr he
    rw [he] at hr
    exact absurd hr (by decide)
  have hnot2 : ∀ r : Session × List (List Char),
      durTruthy r.1.duration = true → ¬r.1.duration = some 0 := by
    intro r hr he
    rw [he] at hr
    exact absurd hr (by decide)
  have hlen' : (SessionManager.delete_session σ i).1.sessions.length ≤ 1000 :=
    Nat.le_trans (List.length_filter_le _ _) hlen
  have hcdS := completedOf_delete σ i (resolveRange now days today).1
    (resolveRange now days today).2 h0
  have hcdR := completedOf_delete σ i sd ed h0
  have hsσ := get_session_stats_normal σ now days today hlen
  have hsδ := get_session_stats_normal (SessionManager.delete_session σ i).1
    now days today hlen'
  refine ⟨?_, ?_, ?_, ?_, ?_, ?_, ?_⟩
  · intro r hr
    exact hnot r (List.mem_filter.mp hr).2
  · intro r hr
    exact hnot2 r (List.mem_filter.mp hr).2
  · rw [hsδ.1, hsσ.1, hcdS]
  · rw [hsδ.2.1, hsσ.2.1, hcdS]
  · rw [hsδ.2.2, hsσ.2.2, hcdS]
  · rw [report_completed_length _ _ _ hlen', report_completed_length _ _ _ hlen, hcdR]
  · rw [report_total_minutes_eq _ _ _ hlen', report_total_minutes_eq _ _ _ hlen, hcdR]

/-- Witness for C9: in a store with a 0-minute completed session (id 1) and a
5-minute one (id 2), the stats count only session 2, and deleting session 1
changes neither the count nor the total. -/
theorem zero_duration_sessions_excluded_witness :
    (SessionManager.get_session_stats exampleZeroDurStore 0 none false).session_count = 1 ∧
    (SessionManager.get_session_stats exampleZeroDurStore 0 none false).total_minutes = 5 ∧
    (SessionManager.get_session_stats
        (SessionManager.delete_session exampleZeroDurStore 1).1 0 none false).session_count =
      (SessionManager.get_session_stats exampleZeroDurStore 0 none false).session_count ∧
    (SessionManager.get_session_stats
        (SessionManager.delete_session exampleZeroDurStore 1).1 0 none false).total_minutes =
      (SessionManager.get_session_stats exampleZeroDurStore 0 none false).total_minutes := by
  have h := zero_duration_sessions_excluded exampleZeroDurStore 1 0 none false none none
    (by decide) (by decide)
  exact ⟨by decide, by decide, h.2.2.1, h.2.2.2.1⟩

/-! ### Sum bookkeeping for the tag summary (C8) -/

theorem sum_map_zero [AddCommMonoid M] (l : List α) :
    (l.map fun _ => (0 : M)).sum = 0 := by
  induction l with
  | nil => rfl
  | cons a t ih => simp [ih]

theorem sum_map_add [AddCommMonoid M] (f g : α → M) (l : List α) :
    (l.map fun x => f x + g x).sum = (l.map f).sum + (l.map g).sum := by
  induction l with
  | nil => simp
  | cons a t ih =>
    simp only [List.map_cons, List.sum_cons, ih]
    abel

theorem sum_map_ite [AddCommMonoid M] (p : α → Bool) (w : α → M) (l : List α) :
    (l.map fun b => if p b = true then w b else 0).sum = ((l.filter p).map w).sum := by
  induction l with
  | nil => rfl
  | cons a t ih =>
    by_cases h : p a = true
    · simp [List.filter_cons, h, ih]
    · simp [List.filter_cons, h, ih]

theorem sum_map_filter_not_add [AddCommMonoid M] (p : α → Bool) (w : α → M)
    (l : List α) :
    ((l.filter p).map w).sum + ((l.filter fun a => !p a).map w).sum = (l.map w).sum := by
  induction l with
  | nil => simp
  | cons a t ih =>
    by_cases h : p a = true
    · simp only [List.filter_cons, h, if_true, Bool.not_true, Bool.false_eq_true, if_false,
        List.map_cons, List.sum_cons]
      rw [add_assoc, ih]
    · have h' : p a = false := Bool.eq_false_iff.mpr h
      simp only [List.filter_cons, h', Bool.false_eq_true, if_false, Bool.not_false, if_true,
        List.map_cons, List.sum_cons]
      rw [add_left_comm, ih]

theorem sum_map_flatMap [AddCommMonoid M] (w : β → M) (f : α → List β) (l : List α) :
    ((l.flatMap f).map w).sum = (l.map fun a => ((f a).map w).sum).sum := by
  induction l with
  | nil => rfl
  | cons a t ih => simp [List.flatMap_cons, ih]

theorem grouped_sum {K V : Type} {M : Type} [DecidableEq K] [AddCommMonoid M]
    (w : K × V → M) :
    ∀ (keys : List K) (l : List (K × V)), keys.Nodup → (∀ p ∈ l, p.1 ∈ keys) →
      (keys.map fun t => ((l.filter fun p => decide (p.1 = t)).map w).sum).sum =
        (l.map w).sum := by
  intro keys
  induction keys with
  | nil =>
    intro l _ hcov
    cases l with
    | nil => rfl
    | cons p l' => exact absurd (hcov p (List.mem_cons_self p l')) (List.not_mem_nil p.1)
  | cons k ks ih =>
    intro l hnd hcov
    have hnd' := List.nodup_cons.mp hnd
    have hks : ∀ t ∈ ks, (l.filter fun p => decide (p.1 = t)) =
        ((l.filter fun p => !decide (p.1 = k)).filter fun p => decide (p.1 = t)) := by
      intro t ht
      rw [List.filter_filter]
      apply List.filter_congr
      intro p _
      by_cases hp : p.1 = t
      · have htk : ¬t = k := fun he => hnd'.1 (he ▸ ht)
        simp [hp, htk]
      · simp [hp]
    rw [List.map_cons, List.sum_cons]
    have hmap : (ks.map fun t => ((l.filter fun p => decide (p.1 = t)).map w).sum) =
        ks.map fun t => (((l.filter fun p => !decide (p.1 = k)).filter
          fun p => decide (p.1 = t)).map w).sum := by
      apply List.map_congr_left
      intro t ht
      rw [hks t ht]
    rw [hmap, ih (l.filter fun p => !decide (p.1 = k)) hnd'.2 ?_]
    · exact sum_map_filter_not_add (fun p => decide (p.1 = k)) w l
    · intro p hp
      have hp2 := List.mem_filter.mp hp
      have : ¬p.1 = k := by
        intro he
        rw [he] at hp2
        simp at hp2
      rcases List.mem_cons.mp (hcov p hp2.1) with h1 | h2
      · exact absurd h1 this
      · exact h2

theorem swap_sum (A : List α) (l : List β) (R : α → β → Bool) (w : β → Int) :
    (A.map fun a => ((l.filter (R a)).map w).sum).sum =
      (l.map fun b => w b * ((A.filter fun a => R a b).length : Int)).sum := by
  induction A with
  | nil =>
    simp only [List.map_nil, List.sum_nil, List.filter_nil, List.length_nil]
    rw [show (l.map fun b => w b * ((0 : Nat) : Int)) = l.map fun _ => (0 : Int) by
      apply List.map_congr_left; intro b _; simp]
    rw [sum_map_zero]
  | cons a A' ih =>
    rw [List.map_cons, List.sum_cons, ih]
    have hpt : ∀ b ∈ l, w b * (((a :: A').filter fun x => R x b).length : Int) =
        (if R a b = true then w b else 0) +
          w b * ((A'.filter fun x => R x b).length : Int) := by
      intro b _
      rw [List.filter_cons]
      by_cases h : R a b = true
      · simp only [h, if_true, List.length_cons]
        push_cast
        ring
      · simp [h]
    conv_rhs => rw [List.map_congr_left hpt]
    rw [sum_map_add, sum_map_ite]

theorem sum_map_intCast (l : List α) (f : α → Int) :
    (l.map fun a => ((f a : Int) : ℚ)).sum = (((l.map f).sum : Int) : ℚ) := by
  induction l with
  | nil => simp
  | cons a t ih => simp [ih]

theorem sum_map_mul_const (l : List α) (f : α → ℚ) (c : ℚ) :
    (l.map fun x => f x * c).sum = (l.map f).sum * c := by
  induction l with
  | nil => simp
  | cons a t ih => simp [ih, add_mul]

theorem sessPred_none_none (σ : Storage) (sd ed : Option Nat) (s : Session) :
    sessPred σ sd ed none none s = dateOkB sd ed s := by
  unfold sessPred strTruthy
  simp

theorem tag_summary_minutes_sum (σ : Storage) (sd ed : Option Nat) :
    ((Storage.get_tag_summary σ sd ed).map fun r => r.2.2).sum =
      ((Storage.tagJoin σ sd ed).map fun p => p.2.duration.getD 0).sum := by
  unfold Storage.get_tag_summary
  rw [((List.perm_insertionSort minutesDescR _).map
    (fun r : List Char × Nat × Int => r.2.2)).sum_eq]
  rw [List.map_map]
  have hcomp : ((fun r : List Char × Nat × Int => r.2.2) ∘ fun t =>
      (t,
       ((((Storage.tagJoin σ sd ed).filter fun p => decide (p.1 = t)).map
           fun p => p.2.id).dedup).length,
       ((((Storage.tagJoin σ sd ed).filter fun p => decide (p.1 = t)).map
           fun p => p.2.duration.getD 0)).sum)) =
      fun t => ((((Storage.tagJoin σ sd ed).filter fun p => decide (p.1 = t)).map
          fun p => p.2.duration.getD 0)).sum := rfl
  rw [hcomp]
  exact grouped_sum (fun p : List Char × Session => p.2.duration.getD 0)
    ((Storage.tagJoin σ sd ed).map Prod.fst).dedup (Storage.tagJoin σ sd ed)
    (List.nodup_dedup _)
    (fun p hp => List.mem_dedup.mpr (List.mem_map_of_mem _ hp))

theorem tagJoin_sum_eq (σ : Storage) (sd ed : Option Nat) :
    ((Storage.tagJoin σ sd ed).map fun p => p.2.duration.getD 0).sum =
      (σ.sessions.map fun s => s.duration.getD 0 *
        ((σ.tags.filter fun tr => decide (s.id = tr.1) && s.duration.isSome &&
          dateOkB sd ed s).length : Int)).sum := by
  unfold Storage.tagJoin
  rw [sum_map_flatMap]
  simp only [List.map_map]
  exact swap_sum σ.tags σ.sessions
    (fun tr s => decide (s.id = tr.1) && s.duration.isSome && dateOkB sd ed s)
    (fun s => s.duration.getD 0)

theorem total_minutes_if_sum (σ : Storage) (sd ed : Option Nat)
    (hlen : σ.sessions.length ≤ 1000) :
    ReportGenerator.total_minutes σ sd ed =
      (σ.sessions.map fun s =>
        if (durTruthy s.duration && sessPred σ sd ed none none s) = true
        then s.duration.getD 0 else 0).sum := by
  rw [report_total_minutes_eq σ sd ed hlen]
  unfold completedOf
  exact (sum_map_ite _ _ _).symm

theorem per_session_le (σ : Storage) (sd ed : Option Nat) (s : Session)
    (hnn : 0 ≤ s.duration.getD 0)
    (hat : s.duration.isSome = true → dateOkB sd ed s = true →
      (σ.tags.filter fun tr => decide (s.id = tr.1)).length ≤ 1) :
    s.duration.getD 0 * ((σ.tags.filter fun tr => decide (s.id = tr.1) &&
      s.duration.isSome && dateOkB sd ed s).length : Int) ≤
    (if (durTruthy s.duration && sessPred σ sd ed none none s) = true
      then s.duration.getD 0 else 0) := by
  rw [sessPred_none_none]
  cases hd : s.duration with
  | none =>
    simp [durTruthy]
  | some d =>
    have hsome := hat (by rw [hd]; rfl)
    have hd0 : 0 ≤ d := by
      have h := hnn
      rw [hd] at h
      simpa using h
    by_cases hdo : dateOkB sd ed s = true
    · simp only [Option.isSome_some, Bool.and_true, hdo, Option.getD_some]
      by_cases hz : d = 0
      · subst hz
        simp [durTruthy]
      · have hdt : durTruthy (some d) = true := by
          unfold durTruthy
          simpa using hz
        rw [hdt]
        simp only [if_pos rfl]
        have hlc : (((σ.tags.filter fun tr => decide (s.id = tr.1)).length : Nat) : Int) ≤ 1 := by
          exact_mod_cast hsome hdo
        calc d * ((σ.tags.filter fun tr => decide (s.id = tr.1)).length : Int)
            ≤ d * 1 := mul_le_mul_of_nonneg_left hlc hd0
          _ = d := mul_one _
    · have hdo' : dateOkB sd ed s = false := Bool.eq_false_iff.mpr hdo
      simp [hdo', durTruthy]

theorem per_session_eq (σ : Storage) (sd ed : Option Nat) (s : Session)
    (hat : s.duration.isSome = true → dateOkB sd ed s = true →
      (σ.tags.filter fun tr => decide (s.id = tr.1)).length = 1) :
    s.duration.getD 0 * ((σ.tags.filter fun tr => decide (s.id = tr.1) &&
      s.duration.isSome && dateOkB sd ed s).length : Int) =
    (if (durTruthy s.duration && sessPred σ sd ed none none s) = true
      then s.duration.getD 0 else 0) := by
  rw [sessPred_none_none]
  cases hd : s.duration with
  | none =>
    simp [durTruthy]
  | some d =>
    have hsome := hat (by rw [hd]; rfl)
    by_cases hdo : dateOkB sd ed s = true
    · simp only [Option.isSome_some, Bool.and_true, hdo, Option.getD_some]
      rw [hsome hdo]
      by_cases hz : d = 0
      · subst hz
        simp [durTruthy]
      · have hdt : durTruthy (some d) = true := by
          unfold durTruthy
          simpa using hz
        rw [hdt]
        simp
    · have hdo' : dateOkB sd ed s = false := Bool.eq_false_iff.mpr hdo
      simp [hdo', durTruthy]

theorem percent_rewrite (σ : Storage) (sd ed : Option Nat)
    (hpos : 0 < ReportGenerator.total_minutes σ sd ed) :
    ReportGenerator.tagPercentageSum σ sd ed =
      ((((Storage.get_tag_summary σ sd ed).map fun r => r.2.2).sum : Int) : ℚ) *
        (100 / ((ReportGenerator.total_minutes σ sd ed : Int) : ℚ)) := by
  unfold ReportGenerator.tagPercentageSum
  have hpt : ∀ r ∈ Storage.get_tag_summary σ sd ed,
      ReportGenerator.tagPercentage (ReportGenerator.total_minutes σ sd ed) r.2.2 =
      ((r.2.2 : Int) : ℚ) * (100 / ((ReportGenerator.total_minutes σ sd ed : Int) : ℚ)) := by
    intro r _
    unfold ReportGenerator.tagPercentage
    rw [if_pos hpos]
    ring
  rw [List.map_congr_left hpt]
  rw [sum_map_mul_const (Storage.get_tag_summary σ sd ed)
    (fun r => ((r.2.2 : Int) : ℚ))
    (100 / ((ReportGenerator.total_minutes σ sd ed : Int) : ℚ))]
  rw [sum_map_intCast (Storage.get_tag_summary σ sd ed) (fun r => r.2.2)]

/-- C8 (amended): when every completed session of the period has at most one
tag row and no stored duration is negative, the tag-summary percentages sum
to at most 100% of the period total; when every completed session of the
period has exactly one tag row and the period total is positive, they sum to
exactly 100%.  (A completed session with two or more tags pushes the sum past
100%, see the counterexample; the original claim's bound fails there.) -/
theorem tag_percentage_sum_bounds (σ : Storage) (sd ed : Option Nat)
    (hlen : σ.sessions.length ≤ 1000)
    (hnn : ∀ s ∈ σ.sessions, 0 ≤ s.duration.getD 0)
    (hat : ∀ s ∈ σ.sessions, s.duration.isSome = true → dateOkB sd ed s = true →
      (σ.tags.filter fun tr => decide (s.id = tr.1)).length ≤ 1) :
    ReportGenerator.tagPercentageSum σ sd ed ≤ 100 ∧
    ((∀ s ∈ σ.sessions, s.duration.isSome = true → dateOkB sd ed s = true →
        (σ.tags.filter fun tr => decide (s.id = tr.1)).length = 1) →
      0 < ReportGenerator.total_minutes σ sd ed →
      ReportGenerator.tagPercentageSum σ sd ed = 100) := by
  have hMT : ((Storage.get_tag_summary σ sd ed).map fun r => r.2.2).sum ≤
      ReportGenerator.total_minutes σ sd ed := by
    rw [tag_summary_minutes_sum, tagJoin_sum_eq, total_minutes_if_sum σ sd ed hlen]
    apply List.sum_le_sum
    intro s hs
    exact per_session_le σ sd ed s (hnn s hs) (fun h1 h2 => hat s hs h1 h2)
  constructor
  · by_cases hpos : 0 < ReportGenerator.total_minutes σ sd ed
    · rw [percent_rewrite σ sd ed hpos]
      have hcast : ((((Storage.get_tag_summary σ sd ed).map fun r => r.2.2).sum : Int) : ℚ) ≤
          ((ReportGenerator.total_minutes σ sd ed : Int) : ℚ) := by
        exact_mod_cast hMT
      have hposQ : (0 : ℚ) < ((ReportGenerator.total_minutes σ sd ed : Int) : ℚ) := by
        exact_mod_cast hpos
      calc ((((Storage.get_tag_summary σ sd ed).map fun r => r.2.2).sum : Int) : ℚ) *
            (100 / ((ReportGenerator.total_minutes σ sd ed : Int) : ℚ)) ≤
          ((ReportGenerator.total_minutes σ sd ed : Int) : ℚ) *
            (100 / ((ReportGenerator.total_minutes σ sd ed : Int) : ℚ)) := by
            apply mul_le_mul_of_nonneg_right hcast
            positivity
        _ = 100 := by field_simp
    · unfold ReportGenerator.tagPercentageSum
      have hpt : ∀ r ∈ Storage.get_tag_summary σ sd ed,
          ReportGenerator.tagPercentage (ReportGenerator.total_minutes σ sd ed) r.2.2 =
            (0 : ℚ) := by
        intro r _
        unfold ReportGenerator.tagPercentage
        rw [if_neg hpos]
      rw [List.map_congr_left hpt, sum_map_zero]
      norm_num
  · intro hcnt hpos
    have hMeq : ((Storage.get_tag_summary σ sd ed).map fun r => r.2.2).sum =
        ReportGenerator.total_minutes σ sd ed := by
      rw [tag_summary_minutes_sum, tagJoin_sum_eq, total_minutes_if_sum σ sd ed hlen]
      exact congrArg List.sum (List.map_congr_left
        (fun s hs => per_session_eq σ sd ed s (fun h1 h2 => hcnt s hs h1 h2)))
    rw [percent_rewrite σ sd ed hpos, hMeq]
    have hne : ((ReportGenerator.total_minutes σ sd ed : Int) : ℚ) ≠ 0 := by
      exact_mod_cast Int.ne_of_gt hpos
    field_simp

/-- C8 counterexample: a single completed 60-minute session tagged both a and
b makes each tag's share 100%, so the percentages sum to 200%, refuting the
claim that they always sum to at most 100% (and that at-least-one-tag gives
exactly 100%). -/
theorem tag_percentage_sum_counterexample :
    ReportGenerator.tagPercentageSum exampleMultiTagStore none none = 200 ∧
    ¬ReportGenerator.tagPercentageSum exampleMultiTagStore none none ≤ 100 := by
  have hsum : Storage.get_tag_summary exampleMultiTagStore none none =
      [(['a'], 1, 60), (['b'], 1, 60)] := by decide
  have htot : ReportGenerator.total_minutes exampleMultiTagStore none none = 60 := by
    decide
  have h200 : ReportGenerator.tagPercentageSum exampleMultiTagStore none none = 200 := by
    unfold ReportGenerator.tagPercentageSum
    rw [hsum, htot]
    norm_num [ReportGenerator.tagPercentage]
  exact ⟨h200, by rw [h200]; norm_num⟩

/-- Witness for C8 (amended): with exactly one tag on the only completed
session, the percentages sum to exactly 100% (and hence at most 100%). -/
theorem tag_percentage_sum_bounds_witness :
    ReportGenerator.tagPercentageSum exampleSingleTagStore none none ≤ 100 ∧
    ReportGenerator.tagPercentageSum exampleSingleTagStore none none = 100 := by
  have h := tag_percentage_sum_bounds exampleSingleTagStore none none
    (by decide) (by decide) (by decide)
  exact ⟨h.1, h.2 (by decide) (by decide)⟩
